import Mathlib

/-!
Shallow embedding of the task-orchestration layer of the STM32 FreeRTOS
general application (src/STM32_FreeRTOS_General_Application/src/main.c) and
proofs about its claims.

Modelling conventions:
* C machine integers are modelled as `Int`/`Nat`.  The `int32_t` sentinel
  `INVALID_NUM = (int32_t)0xFFFFFFFF` is the two's-complement value `-1`.
* Message buffers are `List Char`; the C buffers are zeroed by `memset`
  before each read, so reading past the stored bytes yields `'\0'`, which
  every consumer treats as a terminator (it is neither a digit nor a
  recognised option byte); the `List Char` model therefore coincides with
  the C buffer for every consumer embedded here.
* FreeRTOS ticks are `Nat`.  `FreeRTOSConfig.h` is not part of the sources;
  the tick rate is taken as the standard 1000 Hz demo configuration, so
  `pdMS_TO_TICKS(30000) = 30000`.
* Stateful code is embedded as explicit state passing; the inter-task
  notification protocol of the main menu task is embedded as a labelled
  transition system.
-/

namespace STM32App

/-- INVALID_NUM from main.c line 36: `(int32_t)0xFFFFFFFF`, i.e. `-1`
in two's complement. -/
def INVALID_NUM : Int := -1

/-- Test used by the while loop of `lUartMsgtoInt32` (main.c line 1265):
the byte in hand is an ASCII decimal digit. -/
def isAsciiDigit (c : Char) : Bool :=
  decide (48 ≤ c.toNat) && decide (c.toNat ≤ 57)

/-- lUartMsgtoInt32 (main.c lines 1258-1284): consume the longest prefix of
ASCII digits, folding `ulNum = ulNum * 10 + (byte - 48)`; if no digit was
consumed return `INVALID_NUM`.  For the inputs reachable in this
application (at most a few digits) the `int32_t` arithmetic does not
overflow, so it is modelled with mathematical integers. -/
def lUartMsgtoInt32 (pcUartMsg : List Char) : Int :=
  let ds := pcUartMsg.takeWhile isAsciiDigit
  if 0 < ds.length then
    ds.foldl (fun acc c => acc * 10 + ((c.toNat : Int) - 48)) 0
  else
    INVALID_NUM

/-- Digit-extraction loop of the `%ld` conversion: emit the decimal
digits of `n`, most significant first.  `fuel` ≥ `n` suffices for the
recursion to finish. -/
def natToDecimalAux : Nat → Nat → List Char
  | 0, _ => []
  | fuel + 1, n =>
    if n = 0 then [] else natToDecimalAux fuel (n / 10) ++ [Char.ofNat (48 + n % 10)]

/-- Decimal rendering of a natural number, most significant digit first,
with `0` rendered as `"0"`.  This is the `%ld` conversion of `sprintf`
restricted to non-negative values. -/
def natToDecimal (n : Nat) : List Char :=
  if n = 0 then [Char.ofNat 48] else natToDecimalAux n n

/-- The `%ld` conversion of `sprintf` used throughout main.c to print
`int32_t` values. -/
def sprintfLd (z : Int) : List Char :=
  if z < 0 then Char.ofNat 45 :: natToDecimal z.natAbs else natToDecimal z.toNat

/-- One byte observed on the USART2 data register, stamped with the tick
count at which the busy-wait on RXNE sees it. -/
structure ByteEvent where
  tick : Nat
  byte : Char
deriving Repr, DecidableEq

/-- pdMS_TO_TICKS(30000) at the 1000 Hz tick rate: the 30-second deadline
of `xReceiveUartMsg` measured in ticks. -/
def TICKS_30S : Nat := 30000

/-- Everything a call to `xReceiveUartMsg` leaves behind: the returned
`BaseType_t` (`success`), the value of `*pxQuitCurrentApp` afterwards
(`quit`), the bytes stored into `pcMsgBuffer` (`buffer`), whether the loop
ended at a carriage return (`terminated`), how many timeout notices it
pushed onto the UART write queue (`timeouts`), the tick count at return
(`endTick`) and the byte events not yet consumed (`rest`). -/
structure RecvOutcome where
  success : Bool
  quit : Bool
  buffer : List Char
  terminated : Bool
  timeouts : Nat
  endTick : Nat
  rest : List ByteEvent
deriving Repr, DecidableEq

/-- The while loop of `xReceiveUartMsg` (main.c lines 1022-1048).  `limit`
is `xCurrentTickCount + pdMS_TO_TICKS(30000)`, `prv` is `ucPrvDataByte`,
`now` the tick of the last byte processed (the tick count only advances
when a byte arrives).  `none` models the call never returning: the inner
busy-wait `while (RXNE != SET);` has no deadline, so when the event stream
is exhausted inside it the function blocks forever.  On a normal exit the
result is `(quit, terminated, buffer, endTick, rest)`. -/
def recvLoop (limit : Nat) (quit : Bool) (buf : List Char) (prv : Char) (now : Nat) :
    List ByteEvent → Option (Bool × Bool × List Char × Nat × List ByteEvent)
  | [] => if now < limit then none else some (quit, false, buf, now, [])
  | e :: rest =>
    if now < limit then
      if e.byte = Char.ofNat 13 then
        some (quit || (prv == Char.ofNat 113) || (prv == Char.ofNat 81), true, buf, e.tick, rest)
      else
        recvLoop limit quit (buf ++ [e.byte]) e.byte e.tick rest
    else
      some (quit, false, buf, now, e :: rest)

/-- xReceiveUartMsg (main.c lines 1013-1064).  `startTick` is the tick
count sampled at call entry, `quitIn` the value `*pxQuitCurrentApp` holds
on entry (the function only ever sets it), `events` the byte arrivals.
After the loop the tick count is sampled again: if it is still below the
deadline the call returns pdTRUE, otherwise it posts exactly one timeout
notice to the UART write queue and returns pdFALSE. -/
def xReceiveUartMsg (startTick : Nat) (quitIn : Bool) (events : List ByteEvent) :
    Option RecvOutcome :=
  match recvLoop (startTick + TICKS_30S) quitIn [] (Char.ofNat 0) startTick events with
  | none => none
  | some (q, term, buf, t, rest) =>
    if t < startTick + TICKS_30S then
      some ⟨true, q, buf, term, 0, t, rest⟩
    else
      some ⟨false, q, buf, term, 1, t, rest⟩

/-- The byte events are produced by a monotone tick source no earlier than
the tick sampled at call entry. -/
def EventsSorted (startTick : Nat) (events : List ByteEvent) : Prop :=
  List.Chain (fun a b => a ≤ b) startTick (events.map ByteEvent.tick)

/-- What one call to `xReceiveUartMsg` looks like from the calling task:
the returned `BaseType_t`, whether this call set `*pxQuitCurrentApp`, and
the bytes it stored into the caller's buffer.  The task-level functions
below are embedded over these read outcomes. -/
structure ReadOut where
  success : Bool
  quit : Bool
  buffer : List Char
deriving Repr, DecidableEq

/-- int32Min, the smallest `int32_t` value. -/
def int32Min : Int := -(2 ^ 31)

/-- C `int32_t` division as it appears at main.c line 716
(`lFirstNum / lSecondNum`): `none` on the two cases the C abstract machine
leaves undefined (a zero divisor, and `INT32_MIN / -1`), truncated
division otherwise. -/
def sdiv32 (a b : Int) : Option Int :=
  if b = 0 then none
  else if a = int32Min ∧ b = -1 then none
  else some (a.tdiv b)

/-- Result of the operator switch of `vCalculatorTaskFunction`
(main.c lines 688-728). -/
inductive CalcOutcome
  | value (n : Int)
  | badOp
  | divTrap
deriving Repr, DecidableEq

/-- calcOperate: the switch on `cUartMsg[0]` (main.c lines 688-728).
`value n` stands for the "The calculated integer is %ld" message, `badOp`
for the unrecognized-operator error message, `divTrap` for hitting the
undefined case of the division at line 716. -/
def calcOperate (first second : Int) (op : Char) : CalcOutcome :=
  if op = Char.ofNat 43 then .value (first + second)
  else if op = Char.ofNat 45 then .value (first - second)
  else if op = Char.ofNat 42 then .value (first * second)
  else if op = Char.ofNat 47 then
    match sdiv32 first second with
    | none => .divTrap
    | some v => .value v
  else .badOp

/-- The messages `vCalculatorTaskFunction` itself pushes onto the UART
write queue during one pass of its while loop. -/
inductive CalcMsg
  | promptFirst
  | promptSecond
  | promptOp
  | result (n : Int)
  | errBadOp
deriving Repr, DecidableEq

/-- Observable effect of one pass of the `while(1)` body of
`vCalculatorTaskFunction`. -/
structure CalcIter where
  msgs : List CalcMsg
  quit : Bool
  outcome : Option CalcOutcome
deriving Repr, DecidableEq

/-- One pass of the while loop of `vCalculatorTaskFunction`
(main.c lines 640-745), over the outcomes of its up to three
`xReceiveUartMsg` calls.  `quit` accumulates because `xReceiveUartMsg`
only ever sets `*pxQuitCurrentApp`.  Note the guards at lines 664 and 676
silently fall through when a number parses to `INVALID_NUM`: no message is
posted on that path. -/
def vCalculatorIteration (r1 r2 r3 : ReadOut) : CalcIter :=
  let lFirstNum := lUartMsgtoInt32 r1.buffer
  let q1 := r1.quit
  if r1.success = true ∧ q1 = false ∧ lFirstNum ≠ INVALID_NUM then
    let lSecondNum := lUartMsgtoInt32 r2.buffer
    let q2 := q1 || r2.quit
    if r2.success = true ∧ q2 = false ∧ lSecondNum ≠ INVALID_NUM then
      let q3 := q2 || r3.quit
      if r3.success = true ∧ q3 = false then
        let out := calcOperate lFirstNum lSecondNum (r3.buffer.headD (Char.ofNat 0))
        { msgs := [.promptFirst, .promptSecond, .promptOp] ++
            (match out with
             | .value n => [.result n]
             | .badOp => [.errBadOp]
             | .divTrap => []),
          quit := q3, outcome := some out }
      else
        { msgs := [.promptFirst, .promptSecond, .promptOp], quit := q3, outcome := none }
    else
      { msgs := [.promptFirst, .promptSecond], quit := q2, outcome := none }
  else
    { msgs := [.promptFirst], quit := q1, outcome := none }

/-- The prompts `vSetDateAndTime` can push onto the UART write queue, in
source order (main.c lines 1563, 1580, 1596, 1621, 1638, 1654, 1671). -/
inductive SDTPrompt
  | hour
  | minute
  | second
  | day
  | month
  | year
  | weekday
deriving Repr, DecidableEq

/-- Observable effect of one call to `vSetDateAndTime`: the prompts it
issued, the write to the clock service performed by `RTC_SetTime`
(hours, minutes, seconds), the write performed by `RTC_SetDate`
(date, month, year, weekday), and the final `*pxQuitCurrentApp`. -/
structure SDTOut where
  prompts : List SDTPrompt
  timeWrite : Option (Int × Int × Int)
  dateWrite : Option (Int × Int × Int × Int)
  quit : Bool
deriving Repr, DecidableEq

/-- ST standard-peripheral macro `IS_RTC_DATE` (its header is not in src;
faithful to the library definition: day in 1..31). -/
def IS_RTC_DATE (n : Int) : Prop := 1 ≤ n ∧ n ≤ 31

/-- ST standard-peripheral macro `IS_RTC_MONTH` (month in 1..12). -/
def IS_RTC_MONTH (n : Int) : Prop := 1 ≤ n ∧ n ≤ 12

/-- ST standard-peripheral macro `IS_RTC_WEEKDAY` (weekday code in 1..7). -/
def IS_RTC_WEEKDAY (n : Int) : Prop := 1 ≤ n ∧ n ≤ 7

instance (n : Int) : Decidable (IS_RTC_DATE n) := by unfold IS_RTC_DATE; infer_instance

instance (n : Int) : Decidable (IS_RTC_MONTH n) := by unfold IS_RTC_MONTH; infer_instance

instance (n : Int) : Decidable (IS_RTC_WEEKDAY n) := by unfold IS_RTC_WEEKDAY; infer_instance

/-- Time phase of `vSetDateAndTime` (main.c lines 1562-1615): prompts
hour → minute → second, each step guarded by read success, no quit and
its range check; only if all three pass is `RTC_SetTime` invoked.
Returns the prompts issued, the time write, the quit flag after the
phase, and the index of the next unconsumed read. -/
def sdtTimePhase (reads : Nat → ReadOut) (quitIn : Bool) :
    List SDTPrompt × Option (Int × Int × Int) × Bool × Nat :=
  let r0 := reads 0
  let q0 := quitIn || r0.quit
  let n0 := lUartMsgtoInt32 r0.buffer
  if r0.success = true ∧ q0 = false ∧ 0 ≤ n0 ∧ n0 ≤ 23 then
    let r1 := reads 1
    let q1 := q0 || r1.quit
    let n1 := lUartMsgtoInt32 r1.buffer
    if r1.success = true ∧ q1 = false ∧ 0 ≤ n1 ∧ n1 ≤ 59 then
      let r2 := reads 2
      let q2 := q1 || r2.quit
      let n2 := lUartMsgtoInt32 r2.buffer
      if r2.success = true ∧ q2 = false ∧ 0 ≤ n2 ∧ n2 ≤ 59 then
        ([.hour, .minute, .second], some (n0, n1, n2), q2, 3)
      else
        ([.hour, .minute, .second], none, q2, 3)
    else
      ([.hour, .minute], none, q1, 2)
  else
    ([.hour], none, q0, 1)

/-- Date phase of `vSetDateAndTime` (main.c lines 1620-1704): prompts
day → month → year → weekday the same way; only a fully validated date
reaches `RTC_SetDate` (modelled as succeeding, since the error branch at
line 1695 merely posts a message).  `i` is the index of the first read
this phase consumes. -/
def sdtDatePhase (reads : Nat → ReadOut) (i : Nat) (quitIn : Bool) :
    List SDTPrompt × Option (Int × Int × Int × Int) × Bool :=
  let r3 := reads i
  let q3 := quitIn || r3.quit
  let n3 := lUartMsgtoInt32 r3.buffer
  if r3.success = true ∧ q3 = false ∧ IS_RTC_DATE n3 then
    let r4 := reads (i + 1)
    let q4 := q3 || r4.quit
    let n4 := lUartMsgtoInt32 r4.buffer
    if r4.success = true ∧ q4 = false ∧ IS_RTC_MONTH n4 then
      let r5 := reads (i + 2)
      let q5 := q4 || r5.quit
      let n5 := lUartMsgtoInt32 r5.buffer
      if r5.success = true ∧ q5 = false ∧ 0 ≤ n5 ∧ n5 ≤ 99 then
        let r6 := reads (i + 3)
        let q6 := q5 || r6.quit
        let n6 := lUartMsgtoInt32 r6.buffer
        if r6.success = true ∧ q6 = false ∧ IS_RTC_WEEKDAY n6 then
          ([.day, .month, .year, .weekday], some (n3, n4, n5, n6), q6)
        else
          ([.day, .month, .year, .weekday], none, q6)
      else
        ([.day, .month, .year], none, q5)
    else
      ([.day, .month], none, q4)
  else
    ([.day], none, q3)

/-- Sequencing of the two phases of `vSetDateAndTime`: the guard at
line 1618 tests only `*pxQuitCurrentApp`, not whether the time phase
succeeded, so the date phase runs whenever no quit has been seen. -/
def sdtCombine (reads : Nat → ReadOut) :
    List SDTPrompt × Option (Int × Int × Int) × Bool × Nat → SDTOut
  | (tPrompts, tWrite, qT, i) =>
    if qT = false then
      match sdtDatePhase reads i false with
      | (dPrompts, dWrite, qD) => ⟨tPrompts ++ dPrompts, tWrite, dWrite, qD⟩
    else
      ⟨tPrompts, tWrite, none, qT⟩

/-- vSetDateAndTime (main.c lines 1548-1705) over a stream of read
outcomes, consumed in call order starting at index 0: the time phase
runs first, then the date phase on the remaining reads. -/
def vSetDateAndTime (reads : Nat → ReadOut) (quitIn : Bool) : SDTOut :=
  sdtCombine reads (sdtTimePhase reads quitIn)

/-- Read outcomes supplied as a finite list; any read past the end is a
timed-out read (all later guards fail on it either way). -/
def readsOfList (l : List ReadOut) (i : Nat) : ReadOut :=
  l.getD i ⟨false, false, []⟩

/-- State touched by `USART2_IRQHandler`: the `xGoToSleep` flag and the
number of wake notifications delivered to the Main Menu task so far. -/
structure IsrState where
  xGoToSleep : Bool
  notified : Nat
deriving Repr, DecidableEq

/-- Outcome of one run of the interrupt handler: `ok` if it ran to
completion (with whether it yielded), `nullDeref` if it read through an
invalid pointer, with the state at the faulting read. -/
inductive IsrOutcome
  | ok (s : IsrState) (yielded : Bool)
  | nullDeref (s : IsrState)
deriving Repr, DecidableEq

/-- USART2_IRQHandler (main.c lines 1411-1432).  The local
`pxIsMainMenuTaskHigherPriority` is initialized to NULL (line 1413,
modelled as `none`) and is never pointed at storage;
`xTaskNotifyFromISR` accepts a NULL `pxHigherPriorityTaskWoken` and then
writes nothing through it, so the handler clears `xGoToSleep`, delivers
exactly one notification, and then evaluates
`*pxIsMainMenuTaskHigherPriority == pdTRUE` (line 1425) through the NULL
pointer. -/
def USART2_IRQHandler (s : IsrState) : IsrOutcome :=
  let pxIsMainMenuTaskHigherPriority : Option Bool := none
  let s1 : IsrState := { s with xGoToSleep := false }
  let s2 : IsrState := { s1 with notified := s1.notified + 1 }
  match pxIsMainMenuTaskHigherPriority with
  | none => .nullDeref s2
  | some b => .ok s2 b

/-- The temperature record kept by `vTempMonitorTaskFunction`
(main.c lines 762-770): running extrema with the date-and-time stamp of
each, the stamp abstracted to a `Nat`.  Temperature values are modelled as
rationals: the code only ever compares them with `<`/`>`, so any linear
order is faithful to the float comparisons on the non-NaN values the
sensor produces. -/
structure TempRecord where
  fHighestTemp : ℚ
  fLowestTemp : ℚ
  hiStamp : Nat
  loStamp : Nat
deriving Repr, DecidableEq

/-- The reset performed when monitoring is off or (re)starts
(main.c lines 781-786). -/
def tempRecordReset : TempRecord := ⟨0, 100, 0, 0⟩

/-- One sampling cycle (main.c lines 806-821): a sample strictly above the
tracked highest replaces the highest and its stamp; otherwise a sample
strictly below the tracked lowest replaces the lowest and its stamp;
otherwise nothing changes. -/
def tempMonitorCycle (r : TempRecord) (cur : ℚ) (stamp : Nat) : TempRecord :=
  if r.fHighestTemp < cur then
    { r with fHighestTemp := cur, hiStamp := stamp }
  else if cur < r.fLowestTemp then
    { r with fLowestTemp := cur, loStamp := stamp }
  else
    r

/-- Consecutive sampling cycles of one monitoring session, folded from a
starting record. -/
def tempMonitorRun (r : TempRecord) (samples : List (ℚ × Nat)) : TempRecord :=
  samples.foldl (fun s p => tempMonitorCycle s p.1 p.2) r

/-- Application state relevant to the LED-toggle timer and sleep entry:
the global handle `pxLedToggleTimer` (NULL = `none`), the identities of
timers currently existing in the timer service, a fresh-id counter, and
the two flags `vManageAppSleep` writes. -/
structure LedSleepState where
  pxLedToggleTimer : Option Nat
  live : List Nat
  nextId : Nat
  xGoToSleep : Bool
  xRunTempMonitor : Bool
deriving Repr, DecidableEq

/-- Commands issued to the timer service / LED pin. -/
inductive TimerCmd
  | create (id : Nat)
  | start (id : Nat)
  | stop (id : Nat)
  | delete (id : Nat)
  | ledOff
deriving Repr, DecidableEq

/-- vLedToggleDisable (main.c lines 1351-1363): if a timer handle exists,
stop it (it is not deleted) and force the LED off. -/
def vLedToggleDisable (s : LedSleepState) : LedSleepState × List TimerCmd :=
  match s.pxLedToggleTimer with
  | none => (s, [])
  | some t => (s, [.stop t, .ledOff])

/-- vLedToggleEnable (main.c lines 1301-1320): if the global handle is
NULL, create a fresh timer, store its handle and start it; otherwise only
start the timer the stale handle refers to. -/
def vLedToggleEnable (s : LedSleepState) : LedSleepState × List TimerCmd :=
  match s.pxLedToggleTimer with
  | none =>
    let id := s.nextId
    ({ s with pxLedToggleTimer := some id, live := s.live ++ [id], nextId := id + 1 },
      [.create id, .start id])
  | some t => (s, [.start t])

/-- vManageAppSleep up to its notification wait (main.c lines 1727-1766):
if a LED-toggle timer exists it is stopped, the LED forced off and the
timer deleted via `xTimerDelete` — the global handle is NOT reset to
NULL; then `xRunTempMonitor` is cleared and `xGoToSleep` set before the
task blocks. -/
def vManageAppSleep (s : LedSleepState) : LedSleepState × List TimerCmd :=
  match s.pxLedToggleTimer with
  | none =>
    ({ s with xRunTempMonitor := false, xGoToSleep := true }, [])
  | some t =>
    let d := vLedToggleDisable s
    ({ d.1 with live := d.1.live.erase t, xRunTempMonitor := false, xGoToSleep := true },
      d.2 ++ [.delete t])

/-- The three exclusive sub-applications the Dispatcher hands control to
(main.c cases RUN_CLOCK, RUN_GAME, RUN_CALCULATOR). -/
inductive ExApp
  | clock
  | game
  | calculator
deriving Repr, DecidableEq

/-- ucAppSelected = `cUartMsg[0] - 48` computed in `uint8_t`
(main.c line 327). -/
def ucAppSelected (c : Char) : Nat := (c.toNat + 256 - 48) % 256

/-- The switch at main.c lines 329-384: menu digits 1, 2, 3 select the
clock, game and calculator tasks; everything else is handled inline. -/
def exclusiveAppOf (c : Char) : Option ExApp :=
  match ucAppSelected c with
  | 1 => some .clock
  | 2 => some .game
  | 3 => some .calculator
  | _ => none

/-- Program counter of the Main Menu task: at the top of its menu loop, or
blocked at the `xTaskNotifyWait` that follows an `xTaskNotify` to an
exclusive sub-application (main.c lines 335-358). -/
inductive DispPC
  | atMenu
  | waitingFor (a : ExApp)
deriving Repr, DecidableEq

/-- Joint state of the notification handoff: the Dispatcher's program
counter and, for each exclusive sub-application task, whether it has been
notified to run and has not yet notified back (its task function between
its two `xTaskNotifyWait` calls). -/
structure HandoffState where
  disp : DispPC
  active : ExApp → Bool

/-- Startup state: every task begins blocked at its first
`xTaskNotifyWait` and the Main Menu task at the top of its loop. -/
def initHandoff : HandoffState := ⟨.atMenu, fun _ => false⟩

/-- Mark one sub-application notified to run. -/
def activate (f : ExApp → Bool) (a : ExApp) : ExApp → Bool :=
  fun b => if b = a then true else f b

/-- Mark one sub-application blocked again. -/
def deactivate (f : ExApp → Bool) (a : ExApp) : ExApp → Bool :=
  fun b => if b = a then false else f b

/-- Events of the handoff protocol: one Dispatcher menu iteration whose
`xReceiveUartMsg` produced `r`, or a sub-application's return
notification (`xTaskNotify(xMainMenuTaskHandle, ...)` followed by its own
wait, e.g. main.c lines 486-489). -/
inductive MenuEvent
  | select (r : ReadOut)
  | ret (a : ExApp)

/-- Transition relation of the handoff protocol, one constructor per
source path: `dispatch` is the RUN_CLOCK/RUN_GAME/RUN_CALCULATOR case
(notify the selected task, then block); `inlineOrRetry` covers a failed
or quit read and the inline cases MONITOR_TEMP, TOGGLE_LED, SLEEP and the
default error branch, all of which leave the Dispatcher in its loop;
`subAppReturn` is the running sub-application notifying back and
re-blocking, which unblocks the Dispatcher's wait. -/
inductive MenuStep : HandoffState → MenuEvent → HandoffState → Prop
  | dispatch (s : HandoffState) (r : ReadOut) (a : ExApp) :
      s.disp = .atMenu →
      r.success = true →
      r.quit = false →
      exclusiveAppOf (r.buffer.headD (Char.ofNat 0)) = some a →
      MenuStep s (.select r) ⟨.waitingFor a, activate s.active a⟩
  | inlineOrRetry (s : HandoffState) (r : ReadOut) :
      s.disp = .atMenu →
      (r.success = false ∨ r.quit = true ∨
        exclusiveAppOf (r.buffer.headD (Char.ofNat 0)) = none) →
      MenuStep s (.select r) s
  | subAppReturn (s : HandoffState) (a : ExApp) :
      s.active a = true →
      MenuStep s (.ret a) ⟨.atMenu, deactivate s.active a⟩

/-- States the handoff protocol can reach from startup. -/
inductive MenuReachable : HandoffState → Prop
  | init : MenuReachable initHandoff
  | step {s : HandoffState} {e : MenuEvent} {s' : HandoffState} :
      MenuReachable s → MenuStep s e s' → MenuReachable s'

/-- The handoff invariant: when the Dispatcher is at its menu no exclusive
sub-application is active, and an active sub-application is exactly the
one the Dispatcher is blocked waiting on. -/
def HandoffInv (s : HandoffState) : Prop :=
  (s.disp = .atMenu → ∀ a, s.active a = false) ∧
  (∀ a, s.active a = true → s.disp = .waitingFor a)

/-- Claim C2 (code-bug evaluation): a call to `xReceiveUartMsg` during
which no byte ever arrives does not return `pdFALSE` with one timeout
notice — it does not return at all, because the inner busy-wait on RXNE
(main.c line 1025) is not bounded by the 30-second deadline.  The
deadline is only re-checked after a byte arrives. -/
theorem xReceiveUartMsg_no_input_never_returns :
    xReceiveUartMsg 0 false [] = none := rfl

/-- Claim C7 (code-bug evaluation): on the byte that wakes the system,
`USART2_IRQHandler` does clear `xGoToSleep` and deliver exactly one wake
notification to the Main Menu task, but the higher-priority-task-woken
flag it then inspects is read through `pxIsMainMenuTaskHigherPriority`,
a local pointer initialized to NULL (main.c line 1413) and never pointed
at storage: the read at line 1425 dereferences NULL. -/
theorem usart2_irq_handler_null_deref :
    USART2_IRQHandler ⟨true, 0⟩ = .nullDeref ⟨false, 1⟩ := rfl

/-- Claim C3 (counterexample): the input line `aq<CR>`, received well
before the deadline, is read successfully with buffer `['a','q']` — not
the line `q<CR>` or `Q<CR>` — and yet the quit flag is set, because
`xReceiveUartMsg` only checks the byte immediately preceding the
carriage return. -/
theorem quit_on_longer_line_counterexample :
    xReceiveUartMsg 0 false [⟨1, Char.ofNat 97⟩, ⟨2, Char.ofNat 113⟩, ⟨3, Char.ofNat 13⟩] =
      some ⟨true, true, [Char.ofNat 97, Char.ofNat 113], true, 0, 3, []⟩ ∧
    [Char.ofNat 97, Char.ofNat 113] ≠ [Char.ofNat 113] ∧
    [Char.ofNat 97, Char.ofNat 113] ≠ [Char.ofNat 81] := by
  decide

/-- Claim C5 (counterexample): the hour entry is read successfully but is
non-numeric (no quit), so the time phase fails — yet every date-entry
step is still prompted and, all of them validating, the date is written:
the flow does not abort on a failed time step. -/
theorem set_date_time_no_abort_counterexample :
    lUartMsgtoInt32 [Char.ofNat 120] = INVALID_NUM ∧
    vSetDateAndTime (readsOfList
        [⟨true, false, [Char.ofNat 120]⟩,
         ⟨true, false, [Char.ofNat 53]⟩,
         ⟨true, false, [Char.ofNat 54]⟩,
         ⟨true, false, [Char.ofNat 50, Char.ofNat 48]⟩,
         ⟨true, false, [Char.ofNat 49]⟩]) false =
      ⟨[.hour, .day, .month, .year, .weekday], none, some (5, 6, 20, 1), false⟩ := by
  decide

/-- Claim C6 (counterexample): the calculator's first read succeeds
without a quit and parses to the `INVALID_NUM` sentinel, yet the
iteration's only message is the prompt already issued: the invalid-input
path enqueues no notice before the loop restarts. -/
theorem calculator_silent_invalid_number_counterexample :
    lUartMsgtoInt32 [Char.ofNat 120] = INVALID_NUM ∧
    vCalculatorIteration ⟨true, false, [Char.ofNat 120]⟩
        ⟨true, false, [Char.ofNat 49]⟩ ⟨true, false, [Char.ofNat 43]⟩ =
      ⟨[.promptFirst], false, none⟩ := by
  decide

/-- Claim C8 (counterexample): the two-digit string `"07"` parses to `7`,
which re-serializes to `"7"`, not to the original digits. -/
theorem round_trip_leading_zero_counterexample :
    isAsciiDigit (Char.ofNat 48) = true ∧ isAsciiDigit (Char.ofNat 55) = true ∧
    sprintfLd (lUartMsgtoInt32 [Char.ofNat 48, Char.ofNat 55]) = [Char.ofNat 55] ∧
    [Char.ofNat 55] ≠ [Char.ofNat 48, Char.ofNat 55] := by
  decide

/-- Claim C4: in the calculator, whenever all three reads succeed without
a quit and both integers parse as valid, operator `'/'` makes the task
compute `lFirstNum / lSecondNum` with no guard on the divisor — the
outcome is exactly the guarded 32-bit signed division, whose error branch
is reached at the concrete inputs `7`, `0`, `'/'`. -/
theorem calculator_division_unguarded :
    (∀ r1 r2 r3 : ReadOut,
        r1.success = true → r1.quit = false →
        r2.success = true → r2.quit = false →
        r3.success = true → r3.quit = false →
        lUartMsgtoInt32 r1.buffer ≠ INVALID_NUM →
        lUartMsgtoInt32 r2.buffer ≠ INVALID_NUM →
        r3.buffer.headD (Char.ofNat 0) = Char.ofNat 47 →
        (vCalculatorIteration r1 r2 r3).outcome =
          some (match sdiv32 (lUartMsgtoInt32 r1.buffer) (lUartMsgtoInt32 r2.buffer) with
                | none => CalcOutcome.divTrap
                | some v => CalcOutcome.value v)) ∧
    vCalculatorIteration ⟨true, false, [Char.ofNat 55]⟩ ⟨true, false, [Char.ofNat 48]⟩
        ⟨true, false, [Char.ofNat 47]⟩ =
      ⟨[.promptFirst, .promptSecond, .promptOp], false, some .divTrap⟩ := by
  constructor
  · intro r1 r2 r3 h1s h1q h2s h2q h3s h3q hn1 hn2 hop
    simp only [vCalculatorIteration, h1s, h1q, h2s, h2q, h3s, h3q, hop, Bool.false_or,
      ne_eq, hn1, not_false_eq_true, hn2, and_self, if_true, true_and, and_true]
    rfl
  · decide

/-- Witness for the universally quantified part of
`calculator_division_unguarded`, at inputs `9`, `0`, `'/'`. -/
theorem calculator_division_unguarded_witness :
    (vCalculatorIteration ⟨true, false, [Char.ofNat 57]⟩ ⟨true, false, [Char.ofNat 48]⟩
        ⟨true, false, [Char.ofNat 47]⟩).outcome = some CalcOutcome.divTrap := by
  have h := calculator_division_unguarded.1
    ⟨true, false, [Char.ofNat 57]⟩ ⟨true, false, [Char.ofNat 48]⟩ ⟨true, false, [Char.ofNat 47]⟩
    rfl rfl rfl rfl rfl rfl (by decide) (by decide) (by decide)
  simpa using h

/-- Claim C10: when a LED-toggle timer exists, `vManageAppSleep` stops
and deletes it but leaves the global handle `pxLedToggleTimer` pointing
at the deleted timer, so a later `vLedToggleEnable` takes the
timer-already-exists branch: it creates nothing and merely issues a
start command on the stale handle. -/
theorem sleep_leaves_stale_timer_handle :
    ∀ (s : LedSleepState) (t : Nat), s.pxLedToggleTimer = some t →
      (vManageAppSleep s).1.pxLedToggleTimer = some t ∧
      (vManageAppSleep s).1.live = s.live.erase t ∧
      (vManageAppSleep s).2 = [.stop t, .ledOff, .delete t] ∧
      vLedToggleEnable (vManageAppSleep s).1 = ((vManageAppSleep s).1, [.start t]) := by
  intro s t h
  simp only [vManageAppSleep, vLedToggleDisable, vLedToggleEnable, h, List.cons_append,
    List.nil_append]
  exact ⟨trivial, trivial, trivial, trivial⟩

/-- Witness for `sleep_leaves_stale_timer_handle` at a state holding one
live timer with id 0. -/
theorem sleep_leaves_stale_timer_handle_witness :
    (vManageAppSleep ⟨some 0, [0], 1, false, true⟩).1.pxLedToggleTimer = some 0 ∧
    vLedToggleEnable (vManageAppSleep ⟨some 0, [0], 1, false, true⟩).1 =
      ((vManageAppSleep ⟨some 0, [0], 1, false, true⟩).1, [.start 0]) :=
  ⟨(sleep_leaves_stale_timer_handle ⟨some 0, [0], 1, false, true⟩ 0 rfl).1,
   (sleep_leaves_stale_timer_handle ⟨some 0, [0], 1, false, true⟩ 0 rfl).2.2.2⟩

/-- Helper: along the receive loop, the previous-byte register `prv`
always holds the last byte stored in the buffer (`Char.ofNat 0` while the
buffer is empty), so on a normal exit the quit flag is set exactly when
the loop ended at a carriage return whose preceding byte — the last byte
of the returned buffer — was q or Q. -/
theorem recvLoop_quit_char (limit : Nat) (evs : List ByteEvent) :
    ∀ (buf : List Char) (prv : Char) (now : Nat) (q term : Bool)
      (buf' : List Char) (t : Nat) (rest : List ByteEvent),
      buf.getLastD (Char.ofNat 0) = prv →
      recvLoop limit false buf prv now evs = some (q, term, buf', t, rest) →
      q = (term &&
        ((buf'.getLastD (Char.ofNat 0) == Char.ofNat 113) ||
         (buf'.getLastD (Char.ofNat 0) == Char.ofNat 81))) := by
  induction evs with
  | nil =>
    intro buf prv now q term buf' t rest hbp h
    unfold recvLoop at h
    split at h
    · exact absurd h (by simp)
    · simp only [Option.some.injEq, Prod.mk.injEq] at h
      obtain ⟨hq, hterm, hbuf, ht, hrest⟩ := h
      subst hq
      subst hterm
      simp
  | cons e rest' ih =>
    intro buf prv now q term buf' t rest hbp h
    unfold recvLoop at h
    split at h
    · split at h
      · simp only [Option.some.injEq, Prod.mk.injEq] at h
        obtain ⟨hq, hterm, hbuf, ht, hrest⟩ := h
        subst hq
        subst hterm
        subst hbuf
        rw [hbp]
        simp
      · exact ih (buf ++ [e.byte]) e.byte e.tick q term buf' t rest
          (by simp [List.getLastD_concat]) h
    · simp only [Option.some.injEq, Prod.mk.injEq] at h
      obtain ⟨hq, hterm, hbuf, ht, hrest⟩ := h
      subst hq
      subst hterm
      simp

/-- Claim C3 (amended): for every returning read that starts with the
quit flag clear, the flag comes back true exactly when the read ended at
a carriage return and the byte immediately preceding it — the last byte
stored in the buffer, `Char.ofNat 0` standing for an empty buffer — was
q or Q, regardless of the line's length. -/
theorem quit_iff_terminator_follows_q (startTick : Nat) (events : List ByteEvent)
    (r : RecvOutcome) (h : xReceiveUartMsg startTick false events = some r) :
    r.quit = (r.terminated &&
      ((r.buffer.getLastD (Char.ofNat 0) == Char.ofNat 113) ||
       (r.buffer.getLastD (Char.ofNat 0) == Char.ofNat 81))) := by
  unfold xReceiveUartMsg at h
  rcases hrl : recvLoop (startTick + TICKS_30S) false [] (Char.ofNat 0) startTick events with
    _ | ⟨q, term, buf, t, rest⟩
  · rw [hrl] at h
    exact absurd h (by simp)
  · rw [hrl] at h
    have hq := recvLoop_quit_char (startTick + TICKS_30S) events [] (Char.ofNat 0) startTick
      q term buf t rest rfl hrl
    split at h
    · simp at h
    · rename_i x q2 term2 buf2 t2 rest2 heq
      simp only [Option.some.injEq, Prod.mk.injEq] at heq
      obtain ⟨hh1, hh2, hh3, hh4, hh5⟩ := heq
      subst hh1
      subst hh2
      subst hh3
      subst hh4
      subst hh5
      split at h <;>
        (simp only [Option.some.injEq] at h; subst h; simpa using hq)

/-- Witness for `quit_iff_terminator_follows_q`: the single-character
line `q<CR>` received at ticks 1 and 2. -/
theorem quit_iff_terminator_follows_q_witness :
    (⟨true, true, [Char.ofNat 113], true, 0, 2, []⟩ : RecvOutcome).quit =
      ((⟨true, true, [Char.ofNat 113], true, 0, 2, []⟩ : RecvOutcome).terminated &&
       (((⟨true, true, [Char.ofNat 113], true, 0, 2, []⟩ : RecvOutcome).buffer.getLastD
            (Char.ofNat 0) == Char.ofNat 113) ||
        ((⟨true, true, [Char.ofNat 113], true, 0, 2, []⟩ : RecvOutcome).buffer.getLastD
            (Char.ofNat 0) == Char.ofNat 81))) :=
  quit_iff_terminator_follows_q 0 [⟨1, Char.ofNat 113⟩, ⟨2, Char.ofNat 13⟩] _ (by decide)

/-- Claim C6 (amended): the calculator surfaces only operator errors.  An
invalid (non-numeric) first or second integer on a successful, non-quit
read is silently dropped — the iteration emits nothing beyond the prompts
already issued and restarts — while an unrecognized operator does enqueue
the one-line error notice. -/
theorem calculator_error_messages :
    (∀ r1 r2 r3 : ReadOut,
        r1.success = true → r1.quit = false → lUartMsgtoInt32 r1.buffer = INVALID_NUM →
        (vCalculatorIteration r1 r2 r3).msgs = [.promptFirst]) ∧
    (∀ r1 r2 r3 : ReadOut,
        r1.success = true → r1.quit = false → lUartMsgtoInt32 r1.buffer ≠ INVALID_NUM →
        r2.success = true → r2.quit = false → lUartMsgtoInt32 r2.buffer = INVALID_NUM →
        (vCalculatorIteration r1 r2 r3).msgs = [.promptFirst, .promptSecond]) ∧
    (∀ r1 r2 r3 : ReadOut,
        r1.success = true → r1.quit = false → lUartMsgtoInt32 r1.buffer ≠ INVALID_NUM →
        r2.success = true → r2.quit = false → lUartMsgtoInt32 r2.buffer ≠ INVALID_NUM →
        r3.success = true → r3.quit = false →
        calcOperate (lUartMsgtoInt32 r1.buffer) (lUartMsgtoInt32 r2.buffer)
            (r3.buffer.headD (Char.ofNat 0)) = .badOp →
        (vCalculatorIteration r1 r2 r3).msgs =
          [.promptFirst, .promptSecond, .promptOp, .errBadOp]) := by
  refine ⟨?_, ?_, ?_⟩
  · intro r1 r2 r3 h1s h1q hinv
    simp only [vCalculatorIteration]
    rw [if_neg (by simp [hinv])]
  · intro r1 r2 r3 h1s h1q hn1 h2s h2q hinv
    simp only [vCalculatorIteration]
    rw [if_pos ⟨h1s, h1q, hn1⟩, if_neg (by simp [hinv])]
  · intro r1 r2 r3 h1s h1q hn1 h2s h2q hn2 h3s h3q hbad
    simp only [vCalculatorIteration]
    rw [if_pos ⟨h1s, h1q, hn1⟩, if_pos ⟨h2s, by simp [h1q, h2q], hn2⟩,
      if_pos ⟨h3s, by simp [h1q, h2q, h3q]⟩, hbad]
    rfl

/-- Witness for `calculator_error_messages`: first input `"x"` (silent
restart after the first prompt). -/
theorem calculator_error_messages_witness :
    (vCalculatorIteration ⟨true, false, [Char.ofNat 120]⟩ ⟨true, false, [Char.ofNat 49]⟩
        ⟨true, false, [Char.ofNat 43]⟩).msgs = [.promptFirst] :=
  calculator_error_messages.1 ⟨true, false, [Char.ofNat 120]⟩ ⟨true, false, [Char.ofNat 49]⟩
    ⟨true, false, [Char.ofNat 43]⟩ rfl rfl (by decide)

/-- Helper: the date phase always issues its first prompt. -/
theorem sdtDatePhase_prompts_day (reads : Nat → ReadOut) (i : Nat) (q : Bool) :
    SDTPrompt.day ∈ (sdtDatePhase reads i q).1 := by
  simp only [sdtDatePhase]
  split_ifs <;> simp

/-- Helper: the date phase never issues a time prompt. -/
theorem sdtDatePhase_no_time_prompts (reads : Nat → ReadOut) (i : Nat) (q : Bool) :
    SDTPrompt.minute ∉ (sdtDatePhase reads i q).1 ∧
    SDTPrompt.second ∉ (sdtDatePhase reads i q).1 := by
  simp only [sdtDatePhase]
  split_ifs <;> simp

/-- Claim C5 (amended): abort in `vSetDateAndTime` is per phase.  A quit
at the hour step aborts everything — no further prompt, no write.  A
failed or timed-out hour step without a quit skips the remaining time
steps and the time write, but the date phase is still prompted (its first
prompt is issued) and the date may still be written; only a quit also
suppresses date entry. -/
theorem set_date_time_phase_separation :
    ∀ reads : Nat → ReadOut,
      ((reads 0).quit = true →
        vSetDateAndTime reads false = ⟨[.hour], none, none, true⟩) ∧
      (¬((reads 0).success = true ∧ (reads 0).quit = false ∧
          0 ≤ lUartMsgtoInt32 (reads 0).buffer ∧ lUartMsgtoInt32 (reads 0).buffer ≤ 23) →
        (vSetDateAndTime reads false).timeWrite = none ∧
        SDTPrompt.minute ∉ (vSetDateAndTime reads false).prompts ∧
        SDTPrompt.second ∉ (vSetDateAndTime reads false).prompts) ∧
      ((reads 0).success = true → (reads 0).quit = false →
        ¬(0 ≤ lUartMsgtoInt32 (reads 0).buffer ∧ lUartMsgtoInt32 (reads 0).buffer ≤ 23) →
        SDTPrompt.day ∈ (vSetDateAndTime reads false).prompts) := by
  intro reads
  refine ⟨?_, ?_, ?_⟩
  · intro hq
    simp [vSetDateAndTime, sdtCombine, sdtTimePhase, hq]
  · intro hfail
    have h0 : sdtTimePhase reads false = ([SDTPrompt.hour], none, (reads 0).quit, 1) := by
      simp only [sdtTimePhase, Bool.false_or]
      rw [if_neg hfail]
    unfold vSetDateAndTime
    rw [h0]
    cases hq0 : (reads 0).quit with
    | false =>
      rcases hdp : sdtDatePhase reads 1 false with ⟨dPrompts, dWrite, qD⟩
      have hnm := (sdtDatePhase_no_time_prompts reads 1 false).1
      have hns := (sdtDatePhase_no_time_prompts reads 1 false).2
      rw [hdp] at hnm hns
      simp only [] at hnm hns
      simp [sdtCombine, hdp, hnm, hns]
    | true =>
      simp [sdtCombine]
  · intro hs hq hrange
    have h0 : sdtTimePhase reads false = ([SDTPrompt.hour], none, (reads 0).quit, 1) := by
      simp only [sdtTimePhase, Bool.false_or]
      rw [if_neg (by rintro ⟨-, -, hr⟩; exact hrange hr)]
    unfold vSetDateAndTime
    rw [h0, hq]
    rcases hdp : sdtDatePhase reads 1 false with ⟨dPrompts, dWrite, qD⟩
    have hd := sdtDatePhase_prompts_day reads 1 false
    rw [hdp] at hd
    simp only [] at hd
    simp [sdtCombine, hdp]
    exact hd

/-- Witness for `set_date_time_phase_separation`: hour input `"x"`
(successful read, no quit, non-numeric) still leads to the first date
prompt. -/
theorem set_date_time_phase_separation_witness :
    SDTPrompt.day ∈
      (vSetDateAndTime (readsOfList [⟨true, false, [Char.ofNat 120]⟩]) false).prompts :=
  (set_date_time_phase_separation (readsOfList [⟨true, false, [Char.ofNat 120]⟩])).2.2
    rfl rfl (by decide)

/-- Helper: one sampling cycle never lowers the tracked highest. -/
theorem tempMonitorCycle_high_le (r : TempRecord) (c : ℚ) (t : Nat) :
    r.fHighestTemp ≤ (tempMonitorCycle r c t).fHighestTemp := by
  unfold tempMonitorCycle
  split_ifs with h1 h2
  · exact le_of_lt h1
  · exact le_refl _
  · exact le_refl _

/-- Helper: one sampling cycle never raises the tracked lowest. -/
theorem tempMonitorCycle_low_ge (r : TempRecord) (c : ℚ) (t : Nat) :
    (tempMonitorCycle r c t).fLowestTemp ≤ r.fLowestTemp := by
  unfold tempMonitorCycle
  split_ifs with h1 h2
  · exact le_refl _
  · exact le_of_lt h2
  · exact le_refl _

/-- Helper: across any run of sampling cycles the tracked highest never
decreases. -/
theorem tempMonitorRun_high_le (samples : List (ℚ × Nat)) :
    ∀ r : TempRecord, r.fHighestTemp ≤ (tempMonitorRun r samples).fHighestTemp := by
  induction samples with
  | nil => intro r; exact le_refl _
  | cons p rest ih =>
    intro r
    simp only [tempMonitorRun, List.foldl_cons]
    exact le_trans (tempMonitorCycle_high_le r p.1 p.2) (ih (tempMonitorCycle r p.1 p.2))

/-- Helper: across any run of sampling cycles the tracked lowest never
increases. -/
theorem tempMonitorRun_low_ge (samples : List (ℚ × Nat)) :
    ∀ r : TempRecord, (tempMonitorRun r samples).fLowestTemp ≤ r.fLowestTemp := by
  induction samples with
  | nil => intro r; exact le_refl _
  | cons p rest ih =>
    intro r
    simp only [tempMonitorRun, List.foldl_cons]
    exact le_trans (ih (tempMonitorCycle r p.1 p.2)) (tempMonitorCycle_low_ge r p.1 p.2)

/-- Claim C9: within one monitoring session, across consecutive sampling
cycles the tracked highest temperature is non-decreasing and the tracked
lowest non-increasing, and each cycle updates at most one extremum: the
highest (with its stamp) when the sample exceeds it, else the lowest
(with its stamp) when the sample is below it, else neither. -/
theorem temp_extrema_monotone :
    (∀ (r : TempRecord) (l1 l2 : List (ℚ × Nat)),
        (tempMonitorRun r l1).fHighestTemp ≤ (tempMonitorRun r (l1 ++ l2)).fHighestTemp ∧
        (tempMonitorRun r (l1 ++ l2)).fLowestTemp ≤ (tempMonitorRun r l1).fLowestTemp) ∧
    (∀ (r : TempRecord) (c : ℚ) (t : Nat),
        (tempMonitorCycle r c t).fHighestTemp = r.fHighestTemp ∨
        (tempMonitorCycle r c t).fLowestTemp = r.fLowestTemp) ∧
    (∀ (r : TempRecord) (c : ℚ) (t : Nat),
        (r.fHighestTemp < c →
          tempMonitorCycle r c t = { r with fHighestTemp := c, hiStamp := t }) ∧
        (¬r.fHighestTemp < c → c < r.fLowestTemp →
          tempMonitorCycle r c t = { r with fLowestTemp := c, loStamp := t }) ∧
        (¬r.fHighestTemp < c → ¬c < r.fLowestTemp → tempMonitorCycle r c t = r)) := by
  refine ⟨?_, ?_, ?_⟩
  · intro r l1 l2
    have hsplit : tempMonitorRun r (l1 ++ l2) = tempMonitorRun (tempMonitorRun r l1) l2 := by
      simp [tempMonitorRun, List.foldl_append]
    rw [hsplit]
    exact ⟨tempMonitorRun_high_le l2 (tempMonitorRun r l1),
      tempMonitorRun_low_ge l2 (tempMonitorRun r l1)⟩
  · intro r c t
    unfold tempMonitorCycle
    split_ifs <;> simp
  · intro r c t
    refine ⟨fun h1 => ?_, fun h1 h2 => ?_, fun h1 h2 => ?_⟩
    · unfold tempMonitorCycle
      rw [if_pos h1]
    · unfold tempMonitorCycle
      rw [if_neg h1, if_pos h2]
    · unfold tempMonitorCycle
      rw [if_neg h1, if_neg h2]

/-- Witness for `temp_extrema_monotone`: a first sample of 25 from the
reset record replaces the highest. -/
theorem temp_extrema_monotone_witness :
    tempMonitorCycle tempRecordReset 25 3 =
      { tempRecordReset with fHighestTemp := 25, hiStamp := 3 } :=
  (temp_extrema_monotone.2.2 tempRecordReset 25 3).1 (by norm_num [tempRecordReset])

/-- Helper: every reachable state of the handoff protocol satisfies the
invariant: the Dispatcher at its menu means no exclusive sub-application
is active, and an active one is exactly the one being waited on. -/
theorem handoff_inv_of_reachable : ∀ s : HandoffState, MenuReachable s → HandoffInv s := by
  intro s0 h
  induction h with
  | init =>
    exact ⟨fun _ a => rfl, fun a ha => by simp [initHandoff] at ha⟩
  | @step sp e sp' hr hstep ih =>
    cases hstep with
    | dispatch r a hdisp hs hq happ =>
      refine ⟨fun hd => absurd hd (by simp), fun b hb => ?_⟩
      by_cases hba : b = a
      · subst hba; rfl
      · simp only [activate, if_neg hba] at hb
        have hfalse := ih.1 hdisp b
        rw [hfalse] at hb
        exact absurd hb (by simp)
    | inlineOrRetry r hdisp hfail => exact ih
    | subAppReturn a hact =>
      have honly : ∀ b : ExApp, b ≠ a → sp.active b = false := by
        intro b hba
        by_contra hsb
        rw [Bool.not_eq_false] at hsb
        have h1 := ih.2 b hsb
        have h2 := ih.2 a hact
        rw [h1] at h2
        injection h2 with h3
        exact hba h3
      refine ⟨fun _ b => ?_, fun b hb => ?_⟩
      · by_cases hba : b = a
        · simp [deactivate, hba]
        · simp only [deactivate, if_neg hba]
          exact honly b hba
      · by_cases hba : b = a
        · simp [deactivate, hba] at hb
        · simp only [deactivate, if_neg hba] at hb
          rw [honly b hba] at hb
          exact absurd hb (by simp)

/-- Claim C1: (i) every reachable state of the handoff protocol satisfies
the invariant, so between a dispatch notification and the matching return
at most one exclusive sub-application is ever active; (ii) a successful,
non-quit read of a valid exclusive menu digit makes the Dispatcher notify
exactly the corresponding task and block waiting for it; (iii) from a
waiting state the only possible step is that sub-application's return
notification, which re-blocks it and returns the Dispatcher to its
menu. -/
theorem dispatcher_exclusive_handoff :
    (∀ s : HandoffState, MenuReachable s →
        HandoffInv s ∧ ∀ a b : ExApp, s.active a = true → s.active b = true → a = b) ∧
    (∀ (s s' : HandoffState) (r : ReadOut) (a : ExApp),
        MenuStep s (.select r) s' →
        r.success = true → r.quit = false →
        exclusiveAppOf (r.buffer.headD (Char.ofNat 0)) = some a →
        s' = ⟨.waitingFor a, activate s.active a⟩) ∧
    (∀ (s s' : HandoffState) (a : ExApp) (e : MenuEvent),
        MenuReachable s → s.disp = .waitingFor a → MenuStep s e s' →
        e = .ret a ∧ s'.disp = .atMenu ∧ s'.active a = false) := by
  refine ⟨?_, ?_, ?_⟩
  · intro s hs
    have hinv := handoff_inv_of_reachable s hs
    refine ⟨hinv, fun a b ha hb => ?_⟩
    have h1 := hinv.2 a ha
    have h2 := hinv.2 b hb
    rw [h1] at h2
    injection h2 with h3
  · intro s s' r a hstep hs hq happ
    cases hstep with
    | dispatch r2 a2 hdisp hs2 hq2 happ2 =>
      rw [happ] at happ2
      injection happ2 with ha2
      rw [ha2]
    | inlineOrRetry r2 hdisp hfail =>
      rcases hfail with hf | hf | hf
      · rw [hs] at hf; exact absurd hf (by simp)
      · rw [hq] at hf; exact absurd hf (by simp)
      · rw [happ] at hf; exact absurd hf (by simp)
  · intro s s' a e hreach hwait hstep
    have hinv := handoff_inv_of_reachable s hreach
    cases hstep with
    | dispatch r a2 hdisp hs2 hq2 happ2 =>
      rw [hwait] at hdisp
      exact absurd hdisp (by simp)
    | inlineOrRetry r hdisp hfail =>
      rw [hwait] at hdisp
      exact absurd hdisp (by simp)
    | subAppReturn b hact =>
      have h1 := hinv.2 b hact
      rw [hwait] at h1
      injection h1 with h2
      subst h2
      exact ⟨rfl, rfl, by simp [deactivate]⟩

/-- Witness for `dispatcher_exclusive_handoff`: from startup, menu digit
1 read successfully without a quit dispatches the clock task; the
reached state satisfies the invariant, and from it the only step is the
clock task's return. -/
theorem dispatcher_exclusive_handoff_witness :
    HandoffInv ⟨.waitingFor .clock, activate initHandoff.active .clock⟩ ∧
    ((⟨.waitingFor .clock, activate initHandoff.active .clock⟩ : HandoffState) =
      ⟨.waitingFor .clock, activate initHandoff.active .clock⟩) ∧
    (MenuEvent.ret .clock = MenuEvent.ret ExApp.clock ∧
      (⟨.atMenu, deactivate (activate initHandoff.active .clock) .clock⟩ :
        HandoffState).disp = .atMenu ∧
      deactivate (activate initHandoff.active .clock) .clock .clock = false) := by
  have hstep : MenuStep initHandoff (.select ⟨true, false, [Char.ofNat 49]⟩)
      ⟨.waitingFor .clock, activate initHandoff.active .clock⟩ :=
    MenuStep.dispatch initHandoff ⟨true, false, [Char.ofNat 49]⟩ .clock rfl rfl rfl (by decide)
  have hreach : MenuReachable ⟨.waitingFor .clock, activate initHandoff.active .clock⟩ :=
    MenuReachable.step MenuReachable.init hstep
  have hret : MenuStep ⟨.waitingFor .clock, activate initHandoff.active .clock⟩
      (.ret .clock) ⟨.atMenu, deactivate (activate initHandoff.active .clock) .clock⟩ :=
    MenuStep.subAppReturn ⟨.waitingFor .clock, activate initHandoff.active .clock⟩ .clock rfl
  refine ⟨(dispatcher_exclusive_handoff.1 _ hreach).1, ?_, ?_⟩
  · exact dispatcher_exclusive_handoff.2.1 initHandoff _ ⟨true, false, [Char.ofNat 49]⟩ .clock
      hstep rfl rfl (by decide)
  · exact dispatcher_exclusive_handoff.2.2 _ _ .clock (.ret .clock) hreach rfl hret

/-- Helper: the integer fold of `lUartMsgtoInt32` agrees with the same
fold over naturals when every byte is an ASCII digit. -/
theorem parse_foldl_int_cast (s : List Char) :
    ∀ n : Nat, (∀ c ∈ s, isAsciiDigit c = true) →
      s.foldl (fun acc c => acc * 10 + ((c.toNat : Int) - 48)) (n : Int) =
        ((s.foldl (fun acc c => acc * 10 + (c.toNat - 48)) n : Nat) : Int) := by
  induction s with
  | nil => intro n hd; rfl
  | cons c t ih =>
    intro n hd
    have hc : isAsciiDigit c = true := hd c (List.mem_cons_self c t)
    have h48 : 48 ≤ c.toNat := by
      unfold isAsciiDigit at hc
      simp only [Bool.and_eq_true, decide_eq_true_eq] at hc
      exact hc.1
    simp only [List.foldl_cons]
    rw [show (n : Int) * 10 + ((c.toNat : Int) - 48) = ((n * 10 + (c.toNat - 48) : Nat) : Int)
      by push_cast; omega]
    exact ih _ fun x hx => hd x (List.mem_cons_of_mem c hx)

/-- Helper: the natural fold of `lUartMsgtoInt32` computes the number
whose base-10 digits, least significant first, are the reversed digit
values of the consumed characters. -/
theorem parse_foldl_eq_ofDigits (s : List Char) :
    ∀ n : Nat,
      s.foldl (fun acc c => acc * 10 + (c.toNat - 48)) n =
        Nat.ofDigits 10 ((s.map fun c => c.toNat - 48).reverse) + n * 10 ^ s.length := by
  induction s with
  | nil =>
    intro n
    simp [Nat.ofDigits]
  | cons c t ih =>
    intro n
    simp only [List.foldl_cons, List.map_cons, List.reverse_cons, List.length_cons]
    rw [ih (n * 10 + (c.toNat - 48)), Nat.ofDigits_append]
    simp only [Nat.ofDigits_singleton, List.length_reverse, List.length_map]
    ring

/-- Helper: with enough fuel, the digit-extraction loop of the `%ld`
conversion prints exactly the base-10 digit list of its argument, most
significant digit first. -/
theorem natToDecimalAux_digits : ∀ fuel n : Nat, n ≤ fuel →
    natToDecimalAux fuel n = (Nat.digits 10 n).reverse.map fun d => Char.ofNat (48 + d) := by
  intro fuel
  induction fuel with
  | zero =>
    intro n hn
    interval_cases n
    simp [natToDecimalAux]
  | succ f ih =>
    intro n hn
    by_cases h0 : n = 0
    · subst h0
      simp [natToDecimalAux]
    · have hpos : 0 < n := Nat.pos_of_ne_zero h0
      have hdiv : n / 10 < n := Nat.div_lt_self hpos (by norm_num)
      rw [natToDecimalAux, if_neg h0, Nat.digits_def' (by norm_num) hpos,
        ih (n / 10) (by omega)]
      simp [List.reverse_cons]

/-- Claim C8 (amended): for every string of 1 to 9 ASCII decimal digits
with no leading zero (or the single digit `"0"` itself), parsing with
`lUartMsgtoInt32` and re-serializing with the `%ld` conversion yields
exactly the original digit string.  Leading zeros are the only failures
of the round trip, as they are erased by parsing. -/
theorem parse_print_round_trip :
    ∀ s : List Char, (∀ c ∈ s, isAsciiDigit c = true) →
      1 ≤ s.length → s.length ≤ 9 →
      (s.headD (Char.ofNat 0) ≠ Char.ofNat 48 ∨ s = [Char.ofNat 48]) →
      sprintfLd (lUartMsgtoInt32 s) = s := by
  intro s hdig hlen1 hlen9 hlead
  rcases hlead with hlead | rfl
  swap
  · decide
  obtain ⟨c, t, rfl⟩ : ∃ c t, s = c :: t := by
    cases s with
    | nil => exact absurd hlen1 (by simp)
    | cons c t => exact ⟨c, t, rfl⟩
  have hc := hdig c (List.mem_cons_self c t)
  have h48 : 48 ≤ c.toNat ∧ c.toNat ≤ 57 := by
    unfold isAsciiDigit at hc
    simp only [Bool.and_eq_true, decide_eq_true_eq] at hc
    exact hc
  have hcne : c.toNat ≠ 48 := by
    intro h
    apply hlead
    have := Char.ofNat_toNat c
    rw [h] at this
    simp only [List.headD_cons]
    exact this.symm
  have htake : (c :: t).takeWhile isAsciiDigit = c :: t :=
    List.takeWhile_eq_self_iff.mpr hdig
  have hparse : lUartMsgtoInt32 (c :: t) =
      ((Nat.ofDigits 10 (((c :: t).map fun x => x.toNat - 48).reverse) : Nat) : Int) := by
    unfold lUartMsgtoInt32
    rw [htake, if_pos (by simp)]
    rw [show (0 : Int) = ((0 : Nat) : Int) by simp, parse_foldl_int_cast _ 0 hdig,
      parse_foldl_eq_ofDigits]
    simp
  have hL10 : ∀ x ∈ ((c :: t).map fun x => x.toNat - 48).reverse, x < 10 := by
    intro x hx
    rw [List.mem_reverse, List.mem_map] at hx
    obtain ⟨d, hd, rfl⟩ := hx
    have := hdig d hd
    unfold isAsciiDigit at this
    simp only [Bool.and_eq_true, decide_eq_true_eq] at this
    omega
  have hLne : ((c :: t).map fun x => x.toNat - 48).reverse ≠ [] := by simp
  have hLlast? : (((c :: t).map fun x => x.toNat - 48).reverse).getLast? =
      some (c.toNat - 48) := by
    rw [List.getLast?_reverse]
    simp
  have hdigits : Nat.digits 10 (Nat.ofDigits 10 (((c :: t).map fun x => x.toNat - 48).reverse)) =
      ((c :: t).map fun x => x.toNat - 48).reverse := by
    refine Nat.digits_ofDigits 10 (by norm_num) _ hL10 ?_
    intro h
    rw [List.getLast?_eq_getLast _ h] at hLlast?
    injection hLlast? with hlast
    rw [hlast]
    omega
  have hN0 : Nat.ofDigits 10 (((c :: t).map fun x => x.toNat - 48).reverse) ≠ 0 := by
    intro h
    rw [h] at hdigits
    simp only [Nat.digits_zero] at hdigits
    exact hLne hdigits.symm
  rw [hparse]
  unfold sprintfLd
  rw [if_neg (by simp), Int.toNat_natCast]
  unfold natToDecimal
  rw [if_neg hN0, natToDecimalAux_digits _ _ (le_refl _), hdigits, List.reverse_reverse,
    List.map_map]
  rw [show ((fun d => Char.ofNat (48 + d)) ∘ fun x : Char => x.toNat - 48) =
    fun x : Char => Char.ofNat (48 + (x.toNat - 48)) from rfl]
  have : ∀ x ∈ c :: t, Char.ofNat (48 + (x.toNat - 48)) = x := by
    intro x hx
    have hxd := hdig x hx
    unfold isAsciiDigit at hxd
    simp only [Bool.and_eq_true, decide_eq_true_eq] at hxd
    rw [show 48 + (x.toNat - 48) = x.toNat by omega]
    exact Char.ofNat_toNat x
  calc ((c :: t).map fun x : Char => Char.ofNat (48 + (x.toNat - 48)))
      = (c :: t).map id := List.map_congr_left this
    _ = c :: t := List.map_id _

/-- Witness for `parse_print_round_trip`: the two-digit string `"42"`. -/
theorem parse_print_round_trip_witness :
    sprintfLd (lUartMsgtoInt32 [Char.ofNat 52, Char.ofNat 50]) =
      [Char.ofNat 52, Char.ofNat 50] :=
  parse_print_round_trip [Char.ofNat 52, Char.ofNat 50] (by decide) (by decide) (by decide)
    (by decide)

end STM32App
